import Mathlib

/-!
# Verification of the FuelRx Costco scraper core

A shallow embedding of `src/costco_scraper.py` (class `CostcoScraper`).

Modelling conventions:
* Python strings are Lean `String`; `None`-able values are `Option`.
* Python floats produced by `float()` on the decimal strings captured by the
  scraper's regexes are modelled exactly as `Rat` (every captured group is a
  finite decimal literal, so this is lossless).
* Operations that can raise in Python (`float(...)`, `int(...)`, access to a
  regex group) are modelled as `Except Unit _` in the `..._checked` variants;
  the plain variants return the value of the non-raising path.
* Selenium queries are modelled by their observable outcome: an element query
  either raises `NoSuchElementException` (`none`) or yields the element's
  text / attributes (`some _`).
-/

set_option maxRecDepth 4000
set_option linter.unnecessarySimpa false

namespace Scraper

/-- Python `str.lower()`, per character (ASCII-faithful). -/
def pyLower (s : String) : String := String.mk (s.data.map Char.toLower)

/-- Python truthiness of an optional string (`if s:`): present and non-empty. -/
def truthyStr (s : Option String) : Bool :=
  match s with
  | none => false
  | some t => t ≠ ""

/-- `text.replace(',', '')` in `extract_price`. -/
def stripCommas (s : String) : String :=
  String.mk (s.data.filter (fun c => c ≠ ','))

/-- Value of a digit run, as produced by Python `int`/`float` on the run. -/
def digitsToNat (ds : List Char) : Nat :=
  ds.foldl (fun a c => a * 10 + (c.toNat - 48)) 0

/-- Exact rational value of a decimal string `digits[.digits]` (the shapes
captured by the scraper's price regex); lenient on other shapes. -/
def decimalToRat (s : String) : Rat :=
  let ds := s.data.takeWhile Char.isDigit
  match s.data.drop ds.length with
  | c :: rest2 =>
      if c = '.' then
        let fs := rest2.takeWhile Char.isDigit
        (digitsToNat ds : Rat) + (digitsToNat fs : Rat) / ((10 : Rat) ^ fs.length)
      else (digitsToNat ds : Rat)
  | [] => (digitsToNat ds : Rat)

/-- Model of Python `float(s)` restricted to plain decimal notation: succeeds
exactly on `digits`, `digits.`, `digits.digits`, `.digits` (any other shape is
treated as raising `ValueError`).  This under-approximates `float`, which makes
the no-error theorems below stronger. -/
def float_of_string (s : String) : Except Unit Rat :=
  let ds := s.data.takeWhile Char.isDigit
  match s.data.drop ds.length with
  | [] => if ds.isEmpty then .error () else .ok (decimalToRat s)
  | c :: rest2 =>
      if c = '.' then
        let fs := rest2.takeWhile Char.isDigit
        if rest2.drop fs.length ≠ [] then .error ()
        else if ds.isEmpty ∧ fs.isEmpty then .error ()
        else .ok (decimalToRat s)
      else .error ()

/-- Model of Python `int(s)` for a string expected to be a digit run. -/
def int_of_string (s : String) : Except Unit Nat :=
  if s.data ≠ [] ∧ s.data.all Char.isDigit then .ok (digitsToNat s.data)
  else .error ()

/-! ## `extract_price` — the regex `\$?([\d,]+\.?\d*)` on comma-stripped text

After `text.replace(',', '')` the class `[\d,]+` can only match digits, so a
match at a position is: an optional `$` (kept only when followed by a digit),
then a maximal digit run, then an optional `.` followed by a maximal digit
run.  The trailing parts are optional, so the greedy scan needs no
backtracking; `re.search` takes the leftmost matching position. -/

/-- Group 1 of the price regex at the current position: `[\d,]+\.?\d*` on a
comma-free string — a nonempty digit run, optional dot, digit run. -/
def priceNumAt (s : List Char) : Option String :=
  let ds := s.takeWhile Char.isDigit
  if ds.isEmpty then none
  else
    match s.drop ds.length with
    | c :: rest2 =>
        if c = '.' then some (String.mk (ds ++ '.' :: rest2.takeWhile Char.isDigit))
        else some (String.mk ds)
    | [] => some (String.mk ds)

/-- Leftmost match of `\$?([\d,]+\.?\d*)` on a comma-free string, returning
group 1. -/
def priceScan : List Char → Option String
  | [] => none
  | c :: rest =>
      if c = '$' then
        match priceNumAt rest with
        | some g => some g
        | none => priceScan rest
      else
        match priceNumAt (c :: rest) with
        | some g => some g
        | none => priceScan rest

/-- `CostcoScraper.extract_price`, instrumented: `float(...)` is fallible. -/
def extract_price_checked (text : Option String) : Except Unit (Option Rat) :=
  match text with
  | none => .ok none
  | some t =>
      if t = "" then .ok none
      else
        match priceScan (stripCommas t).data with
        | none => .ok none
        | some g => (float_of_string g).map some

/-- `CostcoScraper.extract_price`: value on the non-raising path. -/
def extract_price (text : Option String) : Option Rat :=
  match text with
  | none => none
  | some t =>
      if t = "" then none
      else
        match priceScan (stripCommas t).data with
        | none => none
        | some g => some (decimalToRat g)

/-- First digit run in the text (regex `(\d+)` of `extract_number`). -/
def numberScan : List Char → Option String
  | [] => none
  | c :: rest =>
      if c.isDigit then some (String.mk ((c :: rest).takeWhile Char.isDigit))
      else numberScan rest

/-- `CostcoScraper.extract_number`, instrumented: `int(...)` is fallible. -/
def extract_number_checked (text : Option String) : Except Unit (Option Nat) :=
  match text with
  | none => .ok none
  | some t =>
      if t = "" then .ok none
      else
        match numberScan t.data with
        | none => .ok none
        | some g => (int_of_string g).map some

/-- `CostcoScraper.extract_number`: value on the non-raising path. -/
def extract_number (text : Option String) : Option Nat :=
  match text with
  | none => none
  | some t =>
      if t = "" then none
      else
        match numberScan t.data with
        | none => none
        | some g => some (digitsToNat g.data)

/-- A string with no digit characters. -/
def noDigits (t : String) : Prop :=
  ∀ c ∈ t.data, ¬ c.isDigit

instance (t : String) : Decidable (noDigits t) := by
  unfold noDigits; infer_instance

/-! ## ProductRecord and the persistence upserter (`save_to_database`)

The destination store (Supabase table `costco_products`, primary-keyed for
upsert purposes by `on_conflict='product_url'`) is modelled as a map from the
conflict key to the full row; an upsert replaces the whole row.  A per-record
persistence failure (the `except` body of the loop) is injected by a predicate
on the record's position in the batch. -/

/-- The fields assembled by `scrape_product_card` / `scrape_product_details`. -/
structure Product where
  name : Option String := none
  price : Option Rat := none
  image_url : Option String := none
  product_url : Option String := none
  costco_id : Option String := none
  brand : Option String := none
  description : Option String := none
  category : String := ""
  warehouse_location : String := "Sandy, UT"
  last_scraped_at : String := ""
  calories : Option Nat := none
  protein : Option Nat := none
  carbs : Option Nat := none
  fat : Option Nat := none
  sodium : Option Nat := none
  fiber : Option Nat := none
  sugar : Option Nat := none
  serving_size : Option String := none
  ingredients : Option String := none
  allergens : Option String := none
  package_size : Option String := none
  unit_price : Option String := none
  raw_product_details : Option String := none
  raw_specifications : Option String := none
  deriving DecidableEq

/-- The destination table, keyed by `product_url`. -/
def Store : Type := String → Option Product

/-- A conflict-aware upsert keyed on `product_url`: replaces every field of
any existing row sharing the key. -/
def upsert_store (s : Store) (url : String) (p : Product) : Store :=
  fun k => if k = url then some p else s k

/-- Python truthiness of `product.get('product_url')`: present and nonempty
(the `if not product.get('product_url'): continue` guard). -/
def keyed (p : Product) : Bool := truthyStr p.product_url

/-- The conflict key of a keyed record (its `product_url`). -/
def conflictKey (p : Product) : String := p.product_url.getD ""

/-- The loop body of `CostcoScraper.save_to_database`.  `fails i` injects a
persistence failure (an exception from `.upsert(...).execute()`) at batch
position `i`; the `except` arm logs and continues, matching the source. -/
def save_go (fails : Nat → Bool) : Nat → List Product → Store → Nat × Store
  | _, [], s => (0, s)
  | i, p :: rest, s =>
      if keyed p = false then save_go fails (i + 1) rest s
      else if fails i then save_go fails (i + 1) rest s
      else
        let out := save_go fails (i + 1) rest (upsert_store s (conflictKey p) p)
        (out.1 + 1, out.2)

/-- `CostcoScraper.save_to_database`: returns `saved_count` and the resulting
store state. -/
def save_to_database (fails : Nat → Bool) (products : List Product)
    (s : Store) : Nat × Store :=
  if products.isEmpty then (0, s) else save_go fails 0 products s

/-- The row a batch leaves at key `k`: the last record of the batch that is
keyed, maps to `k`, and whose upsert succeeds. -/
def lastWrite (fails : Nat → Bool) : Nat → List Product → String → Option Product
  | _, [], _ => none
  | i, p :: rest, k =>
      (lastWrite fails (i + 1) rest k).or
        (if keyed p = true ∧ fails i = false ∧ conflictKey p = k then some p
         else none)

/-! ## A small backtracking regex engine

Just enough of Python `re` for the scraper's patterns: character classes,
concatenation, ordered alternation, greedy `?`/`*`/`+` and the lazy `*?`.
The matcher is continuation-passing, so alternatives and quantifiers
backtrack in exactly Python's order (greedy operators consume the longest
prefix first, ordered alternation tries the left branch first, `re.search`
takes the leftmost matching start position).  `fuel` bounds the recursion
depth; it is set far above what any of the embedded patterns can use. -/

inductive RE where
  | eps : RE
  | cls : (Char → Bool) → RE
  | seq : RE → RE → RE
  | alt : RE → RE → RE
  | opt : RE → RE
  | star : RE → RE
  | starNG : RE → RE

/-- CPS backtracking matcher: match a prefix of `s` against `re`, then run the
continuation on the rest; the first success in backtracking order wins. -/
def reM {α : Type} : Nat → RE → List Char → (List Char → Option α) → Option α
  | 0, _, _, _ => none
  | fuel + 1, re, s, k =>
      match re with
      | .eps => k s
      | .cls p =>
          match s with
          | [] => none
          | c :: rest => if p c then k rest else none
      | .seq a b => reM fuel a s (fun s1 => reM fuel b s1 k)
      | .alt a b =>
          match reM fuel a s k with
          | some v => some v
          | none => reM fuel b s k
      | .opt a =>
          match reM fuel a s k with
          | some v => some v
          | none => k s
      | .star a =>
          match reM fuel a s (fun s1 => reM fuel (.star a) s1 k) with
          | some v => some v
          | none => k s
      | .starNG a =>
          match k s with
          | some v => some v
          | none => reM fuel a s (fun s1 => reM fuel (.starNG a) s1 k)

/-- Recursion-depth budget, comfortably above any embedded pattern's need. -/
def reFuel (s : List Char) : Nat := 8 * s.length + 200

/-- A single literal character. -/
def litCh (c : Char) : RE := RE.cls (fun x => x = c)

/-- A literal string (concatenation of its characters). -/
def strRE (s : String) : RE :=
  s.data.foldr (fun c r => RE.seq (litCh c) r) RE.eps

/-- A case-insensitive literal string (for `re.IGNORECASE` patterns; the
pattern text is given in lowercase, as in the source). -/
def strCI (s : String) : RE :=
  s.data.foldr (fun c r => RE.seq (RE.cls (fun x => x.toLower = c)) r) RE.eps

/-- Python `\s` (ASCII part). -/
def spaceCh (c : Char) : Bool :=
  c = ' ' || c = '\t' || c = '\n' || c = '\x0d' || c = '\x0b' || c = '\x0c'

/-- `\s*` -/
def wspStar : RE := RE.star (RE.cls spaceCh)

/-- `\s+` -/
def wspPlus : RE := RE.seq (RE.cls spaceCh) wspStar

/-- `[:\s]*` -/
def colonSpaceStar : RE := RE.star (RE.cls (fun c => c = ':' || spaceCh c))

/-- `(?:total\s+)?` -/
def optTotal : RE := RE.opt (RE.seq (strRE "total") wspPlus)

/-- `(?:dietary\s+)?` -/
def optDietary : RE := RE.opt (RE.seq (strRE "dietary") wspPlus)

/-- Try every start position, leftmost first (`re.search`). -/
def searchEvery {α : Type} (f : List Char → Option α) : List Char → Option α
  | [] => f []
  | c :: rest =>
      match f (c :: rest) with
      | some v => some v
      | none => searchEvery f rest

/-! ### Nutrient patterns: `pre (\d+) post`

Every nutrient regex in `scrape_product_details` has exactly one capture
group, `(\d+)`.  A pattern is embedded as the regex before the group and the
regex after it; the group itself is matched greedily with backtracking (the
longest digit run whose continuation matches wins, shorter runs are tried
next, exactly Python's order). -/

structure NPat where
  pre : RE
  post : RE

/-- Greedy `(\d+)` at `s1` followed by `post`: longest digit prefix first. -/
def numCapture (fuel : Nat) (post : RE) (s1 : List Char) : Option Nat :=
  go ((s1.takeWhile Char.isDigit).length)
where
  go : Nat → Option Nat
    | 0 => none
    | n + 1 =>
        match reM (α := Nat) fuel post (s1.drop (n + 1)) (fun _ => some 0) with
        | some _ => some (digitsToNat (s1.take (n + 1)))
        | none => go n

/-- Match a nutrient pattern anchored at the current position. -/
def npatMatchAt (p : NPat) (s : List Char) : Option Nat :=
  reM (reFuel s) p.pre s (fun s1 => numCapture (reFuel s) p.post s1)

/-- `re.search` for a nutrient pattern: leftmost start position wins. -/
def npatSearch (p : NPat) (s : List Char) : Option Nat :=
  searchEvery (npatMatchAt p) s

/-- `cal_patterns`. -/
def cal_patterns : List NPat :=
  [⟨RE.seq (strRE "calories") colonSpaceStar, RE.eps⟩,
   ⟨RE.eps, RE.seq wspStar (strRE "calories")⟩,
   ⟨RE.seq (strRE "cal") colonSpaceStar, RE.eps⟩]

/-- `protein_patterns`. -/
def protein_patterns : List NPat :=
  [⟨RE.seq (strRE "protein") colonSpaceStar, RE.seq wspStar (litCh 'g')⟩,
   ⟨RE.eps, RE.seq wspStar (RE.seq (litCh 'g') (RE.seq wspStar (strRE "protein")))⟩]

/-- `carb_patterns`. -/
def carb_patterns : List NPat :=
  [⟨RE.seq optTotal
      (RE.seq (strRE "carb")
        (RE.seq (RE.opt (strRE "ohydrate")) (RE.seq (RE.opt (litCh 's')) colonSpaceStar))),
    RE.seq wspStar (litCh 'g')⟩,
   ⟨RE.eps, RE.seq wspStar (RE.seq (litCh 'g') (RE.seq wspStar (RE.seq optTotal (strRE "carb"))))⟩]

/-- `fat_patterns`. -/
def fat_patterns : List NPat :=
  [⟨RE.seq optTotal (RE.seq (strRE "fat") colonSpaceStar), RE.seq wspStar (litCh 'g')⟩,
   ⟨RE.eps, RE.seq wspStar (RE.seq (litCh 'g') (RE.seq wspStar (RE.seq optTotal (strRE "fat"))))⟩]

/-- `sodium_patterns`. -/
def sodium_patterns : List NPat :=
  [⟨RE.seq (strRE "sodium") colonSpaceStar, RE.seq wspStar (strRE "mg")⟩,
   ⟨RE.eps, RE.seq wspStar (RE.seq (strRE "mg") (RE.seq wspStar (strRE "sodium")))⟩]

/-- `fiber_patterns`. -/
def fiber_patterns : List NPat :=
  [⟨RE.seq optDietary (RE.seq (strRE "fiber") colonSpaceStar), RE.seq wspStar (litCh 'g')⟩,
   ⟨RE.eps, RE.seq wspStar (RE.seq (litCh 'g') (RE.seq wspStar (RE.seq optDietary (strRE "fiber"))))⟩]

/-- `sugar_patterns`. -/
def sugar_patterns : List NPat :=
  [⟨RE.seq optTotal (RE.seq (strRE "sugar") (RE.seq (RE.opt (litCh 's')) colonSpaceStar)),
    RE.seq wspStar (litCh 'g')⟩,
   ⟨RE.eps, RE.seq wspStar (RE.seq (litCh 'g') (RE.seq wspStar (RE.seq optTotal (strRE "sugar"))))⟩]

/-- The per-nutrient loop of `scrape_product_details`: try the patterns in
order, set the field from the first match and `break` (so a later,
lower-priority pattern can never overwrite it). -/
def nutrient_first (pats : List NPat) (t : List Char) : Option Nat :=
  match pats with
  | [] => none
  | p :: rest =>
      match npatSearch p t with
      | some v => some v
      | none => nutrient_first rest t

/-- The seven nutrient pattern lists, in the source's field order. -/
def nutrients : List (List NPat) :=
  [cal_patterns, protein_patterns, carb_patterns, fat_patterns,
   sodium_patterns, fiber_patterns, sugar_patterns]

/-! ## Card-level extraction (`scrape_product_card`)

A product card context records, per strategy list, what each Selenium query
would observe: `none` models `NoSuchElementException`, `some _` the found
element's text / attributes. -/

/-- Python `str.strip()` (whitespace at both ends). -/
def pyStrip (s : String) : String :=
  String.mk (((s.data.dropWhile spaceCh).reverse.dropWhile spaceCh).reverse)

/-- Python `str.startswith(p)`. -/
def strStartsWith (s p : String) : Bool := List.isPrefixOf p.data s.data

/-- Python `sub in s` (substring containment). -/
def strContainsAux (sub : List Char) : List Char → Bool
  | [] => sub.isEmpty
  | c :: rest => List.isPrefixOf sub (c :: rest) || strContainsAux sub rest

/-- Python `sub in s`. -/
def strContains (s sub : String) : Bool := strContainsAux sub.data s.data

/-- Python `s.replace(pat, '')`: delete every (non-overlapping, leftmost)
occurrence of `pat`.  `fuel` starts at the string length, enough for every
step of the left-to-right scan. -/
def removeAllGo (pat : List Char) : Nat → List Char → List Char
  | _, [] => []
  | 0, s => s
  | fuel + 1, c :: rest =>
      if pat ≠ [] ∧ List.isPrefixOf pat (c :: rest) then
        removeAllGo pat fuel ((c :: rest).drop pat.length)
      else c :: removeAllGo pat fuel rest

/-- Python `s.replace(pat, '')`. -/
def removePat (s pat : String) : String :=
  String.mk (removeAllGo pat.data s.data.length s.data)

/-- The name validity test applied to one strategy's query outcome
(`if name_text and len(name_text) > 3` on the stripped text; `none` models
`NoSuchElementException`). -/
def validName (r : Option String) : Bool :=
  match r with
  | none => false
  | some txt => pyStrip txt ≠ "" && (pyStrip txt).length > 3

/-- The name-selector loop: first strategy whose element is found and whose
stripped text is nonempty with length > 3; found-but-invalid strategies do
not assign and the loop continues. -/
def resolve_name : List (Option String) → Option String
  | [] => none
  | none :: rest => resolve_name rest
  | some txt :: rest =>
      if validName (some txt) then some (pyStrip txt) else resolve_name rest

/-- `resolve_name`, instrumented with the number of strategies evaluated
(a strategy is evaluated when the loop reaches it and runs its query). -/
def resolve_name_instr : List (Option String) → Option String × Nat
  | [] => (none, 0)
  | none :: rest =>
      let r := resolve_name_instr rest
      (r.1, r.2 + 1)
  | some txt :: rest =>
      if validName (some txt) then (some (pyStrip txt), 1)
      else
        let r := resolve_name_instr rest
        (r.1, r.2 + 1)

/-! ### The remaining card field loops -/

/-- The price-selector loop of `scrape_product_card`: on a found element with
nonempty stripped text the parsed price is assigned (`product['price'] = ...`)
and the loop breaks only if it is truthy (non-`None` and nonzero). -/
def price_loop : List (Option String) → Option Rat → Option Rat
  | [], acc => acc
  | none :: rest, acc => price_loop rest acc
  | some txt :: rest, acc =>
      let t := pyStrip txt
      if t = "" then price_loop rest acc
      else
        match extract_price (some t) with
        | some v => if v ≠ 0 then some v else price_loop rest (some v)
        | none => price_loop rest none

/-- The image-selector loop: `src or data-src`, assigned and broken on a
truthy URL. -/
def image_loop : List (Option (Option String × Option String)) → Option String
  | [] => none
  | none :: rest => image_loop rest
  | some (src, dsrc) :: rest =>
      let img := if truthyStr src then src else dsrc
      if truthyStr img then img else image_loop rest

/-- The link-selector loop: first href containing `.html` or `/p/`, prefixed
with the site origin when relative. -/
def link_loop : List (Option String) → Option String
  | [] => none
  | none :: rest => link_loop rest
  | some href :: rest =>
      if href ≠ "" ∧ (strContains href ".html" || strContains href "/p/") then
        some (if strStartsWith href "http" then href
              else "https://www.costco.com" ++ href)
      else link_loop rest

/-- Suffix test of the id regex `[/.](\d{6,})(?:\.html|\?|$)` after the digit
run (`$` matches at the end or before a final newline). -/
def idSuffixOk (r : List Char) : Bool :=
  List.isPrefixOf ".html".data r ||
    (match r with | '?' :: _ => true | _ => false) ||
    r.isEmpty || r = ['\n']

/-- Leftmost match of `[/.](\d{6,})(?:\.html|\?|$)`, returning group 1.  The
greedy `\d{6,}` need not backtrack: after the maximal digit run the next
character is not a digit, and every shorter run would put a digit where the
suffix alternatives (all starting with a non-digit, or end-of-string)
require otherwise. -/
def idScan : List Char → Option String
  | [] => none
  | c :: rest =>
      if c = '/' || c = '.' then
        let ds := rest.takeWhile Char.isDigit
        if ds.length ≥ 6 && idSuffixOk (rest.drop ds.length) then
          some (String.mk ds)
        else idScan rest
      else idScan rest

/-- What each Selenium query of one product card observes. -/
structure CardCtx where
  testid : Option String
  nameResults : List (Option String)
  priceResults : List (Option String)
  imageResults : List (Option (Option String × Option String))
  linkResults : List (Option String)
  brandResult : Option String
  deriving DecidableEq

/-- `CostcoScraper.scrape_product_card`. -/
def scrape_product_card (ctx : CardCtx) (category now : String) : Option Product :=
  let costco_id0 : Option String :=
    match ctx.testid with
    | some t =>
        if strStartsWith t "ProductTile_" then some (removePat t "ProductTile_")
        else none
    | none => none
  match resolve_name ctx.nameResults with
  | none => none
  | some nm =>
      let price := price_loop ctx.priceResults none
      let image := image_loop ctx.imageResults
      let url := link_loop ctx.linkResults
      let cid : Option String :=
        if truthyStr costco_id0 = false ∧ truthyStr url = true then
          match url with
          | some u =>
              match idScan u.data with
              | some d => some d
              | none => costco_id0
          | none => costco_id0
        else costco_id0
      let brand : Option String :=
        match ctx.brandResult with
        | some b => if pyStrip b ≠ "" then some (pyStrip b) else none
        | none => none
      if nm ≠ "" then
        some { name := some nm, price := price, image_url := image,
               product_url := url, costco_id := cid, brand := brand,
               category := category, warehouse_location := "Sandy, UT",
               last_scraped_at := now }
      else none

/-- The per-card loop of `scrape_category`: cards whose extraction yields no
record (or raises — caught by the loop's `except`) are skipped, all others
are appended. -/
def extract_cards (ctxs : List CardCtx) (category now : String) : List Product :=
  match ctxs with
  | [] => []
  | c :: rest =>
      match scrape_product_card c category now with
      | some p => p :: extract_cards rest category now
      | none => extract_cards rest category now

/-! ## C10 — zero prices in the price-selector loop

`product['price'] = self.extract_price(price_text)` runs whenever an element
with nonempty text is found; `if product['price']: break` breaks only on a
truthy (non-`None`, nonzero) value.  A strategy that raises
`NoSuchElementException`, or finds empty text, performs no assignment. -/

/-- Whether one price strategy's outcome performs an assignment (element
found with nonempty stripped text). -/
def assigns (r : Option String) : Bool :=
  match r with
  | none => false
  | some txt => pyStrip txt ≠ ""

/-- `price_loop`, instrumented with (value, strategies evaluated, whether the
loop exited via `break`). -/
def price_loop_instr : List (Option String) → Option Rat → Option Rat × Nat × Bool
  | [], acc => (acc, 0, false)
  | none :: rest, acc =>
      let r := price_loop_instr rest acc
      (r.1, r.2.1 + 1, r.2.2)
  | some txt :: rest, acc =>
      let t := pyStrip txt
      if t = "" then
        let r := price_loop_instr rest acc
        (r.1, r.2.1 + 1, r.2.2)
      else
        match extract_price (some t) with
        | some v =>
            if v ≠ 0 then (some v, 1, true)
            else
              let r := price_loop_instr rest (some v)
              (r.1, r.2.1 + 1, r.2.2)
        | none =>
            let r := price_loop_instr rest none
            (r.1, r.2.1 + 1, r.2.2)

/-! ## Container discovery fallback by link traversal (`scrape_category`)

When no primary container selector matches, the code collects `a[href*='/p/']`
links, deduplicates by `href` (Python-falsy hrefs are skipped), and walks each
fresh link up to its `product`/`col-` ancestor; a link without such an
ancestor raises inside the `try` and is skipped — note its URL has already
been recorded as seen. -/

/-- One discovered item link: its `href` attribute and its container ancestor
(`none` models a failing `./ancestor::div[...]` lookup).  Containers are
abstract handles. -/
structure LinkElem where
  href : Option String
  parent : Option Nat
  deriving DecidableEq

/-- The fallback loop of `scrape_category`. -/
def link_fallback : List LinkElem → List String → List Nat
  | [], _ => []
  | l :: rest, seen =>
      match l.href with
      | none => link_fallback rest seen
      | some h =>
          if h = "" then link_fallback rest seen
          else if h ∈ seen then link_fallback rest seen
          else
            match l.parent with
            | some p => p :: link_fallback rest (h :: seen)
            | none => link_fallback rest (h :: seen)

/-- The distinct fresh (truthy, unseen) link URLs, in traversal order. -/
def freshUrls : List LinkElem → List String → List String
  | [], _ => []
  | l :: rest, seen =>
      match l.href with
      | none => freshUrls rest seen
      | some h =>
          if h = "" then freshUrls rest seen
          else if h ∈ seen then freshUrls rest seen
          else h :: freshUrls rest (h :: seen)

/-! ## Warehouse/locale setup is best-effort (`set_warehouse`, `run`)

Every observable outcome of the Selenium interactions is a parameter: which
waits find an element and which interactions raise.  Every `return` statement
in `set_warehouse` returns `True` — the success path, the
"could not find warehouse selector - continuing anyway" path, and the
catch-all `except` — so no outcome propagates an error, and `run` (which
discards the result) always proceeds to the category loop. -/

structure WarehouseEnv where
  buttonFound : Bool
  buttonClickFails : Bool
  zipFound : Bool
  zipInteractFails : Bool
  submitFails : Bool
  optionFound : Bool
  optionClickFails : Bool
  deriving DecidableEq

/-- The `try` body of `set_warehouse`: `.error ()` at each point where a
Selenium interaction may raise an exception (caught by the outer handler);
a wait that times out is not an exception (handled by `if`/inner `except`). -/
def set_warehouse_body (e : WarehouseEnv) : Except Unit Bool :=
  if e.buttonFound then
    if e.buttonClickFails then .error ()
    else if e.zipFound then
      if e.zipInteractFails then .error ()
      else if e.submitFails then .error ()
      else if e.optionFound then
        if e.optionClickFails then .error ()
        else .ok true
      else .ok true
    else .ok true
  else .ok true

/-- `CostcoScraper.set_warehouse`: the outer `except` returns `True`. -/
def set_warehouse (e : WarehouseEnv) : Except Unit Bool :=
  match set_warehouse_body e with
  | .ok b => .ok b
  | .error _ => .ok true

/-- The module-level `CATEGORIES` mapping. -/
def CATEGORIES : List (String × String) :=
  [("meat_seafood", "https://www.costco.com/meat.html"),
   ("deli", "https://www.costco.com/deli.html"),
   ("prepared_meals", "https://www.costco.com/prepared-food.html"),
   ("pantry", "https://www.costco.com/pantry.html"),
   ("organic", "https://www.costco.com/organic-groceries.html"),
   ("cheese_dairy", "https://www.costco.com/dairy-eggs-cheese.html"),
   ("snacks", "https://www.costco.com/snacks.html")]

/-- The fragment of `CostcoScraper.run` around warehouse setup: run
`set_warehouse` (result discarded), then visit every configured category in
order.  An error escaping `set_warehouse` would abort the sequence. -/
def run_warehouse_then_categories (e : WarehouseEnv) : Except Unit (List String) :=
  (set_warehouse e).bind (fun _ => .ok (CATEGORIES.map Prod.fst))

/-! ## The detail-page pattern extractions (`scrape_product_details`)

Serving size, ingredients and allergens run with `re.IGNORECASE` over the
combined details+specifications text; package size and unit price run over
its lowercased form.  Each extraction is embedded once as a plain total
function (its value) and once `_checked`, where the Python operations that
can raise — `float(...)`, `int(...)`, `match.group(...)` on a failed match —
are fallible; the guards in the source (`if match:`) make the checked
variants provably error-free. -/

/-- Python slicing `s[:n]` (by code point). -/
def pyTake (n : Nat) (s : String) : String := String.mk (s.data.take n)

/-- `[^\n]` -/
def notNL (c : Char) : Bool := c ≠ '\n'

/-- `[^\n,\.]` -/
def servingCh (c : Char) : Bool := !(c = '\n' || c = ',' || c = '.')

/-- `[\d.]` -/
def digitDot (c : Char) : Bool := c.isDigit || c = '.'

/-- Search for `pre` followed by a captured greedy nonempty run of `cl`
(patterns of shape `pre([cl]+)` with nothing after the group): the
continuation rejects positions where the class run is empty, which makes the
engine backtrack `pre`'s greedy operators exactly as Python does. -/
def captureClassAfter (pre : RE) (cl : Char → Bool) (s : List Char) : Option String :=
  searchEvery
    (fun sfx =>
      reM (reFuel sfx) pre sfx (fun s1 =>
        let cs := s1.takeWhile cl
        if cs.isEmpty then none else some (String.mk cs)))
    s

/-- Search for `re`, returning the consumed substring (group 0, or a group
spanning the whole pattern). -/
def captureConsumed (re : RE) (s : List Char) : Option String :=
  searchEvery
    (fun sfx =>
      reM (reFuel sfx) re sfx (fun rem =>
        some (String.mk (sfx.take (sfx.length - rem.length)))))
    s

/-- Python `match.group(i)`: raises on a failed match. -/
def group_get : Option String → Except Unit String
  | none => .error ()
  | some g => .ok g

/-- `serving size[:\s]*([^\n,\.]+)` with `re.IGNORECASE`. -/
def servingPre : RE := RE.seq (strCI "serving size") colonSpaceStar

/-- Serving-size extraction: `match.group(1).strip()[:100]`. -/
def serving_size_extract (t : String) : Option String :=
  match captureClassAfter servingPre servingCh t.data with
  | none => none
  | some g => some (pyTake 100 (pyStrip g))

/-- Serving-size extraction, group access fallible. -/
def serving_size_checked (t : String) : Except Unit (Option String) :=
  match captureClassAfter servingPre servingCh t.data with
  | none => .ok none
  | some g => (group_get (some g)).map (fun x => some (pyTake 100 (pyStrip x)))

/-- `[^\n]+` -/
def ingLine : RE := RE.seq (RE.cls notNL) (RE.star (RE.cls notNL))

/-- The capture `([^\n]+(?:\n[^\n]+)*?)` of the ingredients pattern. -/
def ingCapRE : RE :=
  RE.seq ingLine (RE.starNG (RE.seq (litCh '\n') ingLine))

/-- The lookahead `(?=\n\s*\n|allergen|contains|$)`; `$` (no `MULTILINE`)
matches at the end of the text or before one trailing newline. -/
def ingLookaheadOk (r : List Char) : Bool :=
  (reM (α := Nat) (reFuel r) (RE.seq (litCh '\n') (RE.seq wspStar (litCh '\n')))
      r (fun _ => some 0)).isSome ||
  (reM (α := Nat) (reFuel r) (strCI "allergen") r (fun _ => some 0)).isSome ||
  (reM (α := Nat) (reFuel r) (strCI "contains") r (fun _ => some 0)).isSome ||
  r.isEmpty || r = ['\n']

/-- `ingredients?[:\s]*([^\n]+(?:\n[^\n]+)*?)(?=\n\s*\n|allergen|contains|$)`
with `re.IGNORECASE`: the lazy star extends line by line until the lookahead
holds. -/
def ingredientsSearch (s : List Char) : Option String :=
  searchEvery
    (fun sfx =>
      reM (reFuel sfx)
        (RE.seq (strCI "ingredient")
          (RE.seq (RE.opt (RE.cls (fun c => c.toLower = 's'))) colonSpaceStar))
        sfx
        (fun s1 =>
          reM (reFuel sfx) ingCapRE s1 (fun rem =>
            if ingLookaheadOk rem then
              some (String.mk (s1.take (s1.length - rem.length)))
            else none)))
    s

/-- Ingredients extraction: the capture is kept only when its stripped length
exceeds 20, truncated to 2000. -/
def ingredients_extract (t : String) : Option String :=
  match ingredientsSearch t.data with
  | none => none
  | some g =>
      let ing := pyStrip g
      if ing.length > 20 then some (pyTake 2000 ing) else none

/-- Ingredients extraction, group access fallible. -/
def ingredients_checked (t : String) : Except Unit (Option String) :=
  match ingredientsSearch t.data with
  | none => .ok none
  | some g =>
      (group_get (some g)).map (fun x =>
        let ing := pyStrip x
        if ing.length > 20 then some (pyTake 2000 ing) else none)

/-- `(?:contains|allergen)[:\s]*([^\n]+)` with `re.IGNORECASE`. -/
def allergenPre1 : RE :=
  RE.seq (RE.alt (strCI "contains") (strCI "allergen")) colonSpaceStar

/-- `(?:may contain)[:\s]*([^\n]+)` with `re.IGNORECASE`. -/
def allergenPre2 : RE := RE.seq (strCI "may contain") colonSpaceStar

/-- Allergens: both patterns are collected (no break), joined with `"; "` and
truncated to 500. -/
def allergens_extract (t : String) : Option String :=
  let lst :=
    (match captureClassAfter allergenPre1 notNL t.data with
      | some g => [pyStrip g]
      | none => []) ++
    (match captureClassAfter allergenPre2 notNL t.data with
      | some g => [pyStrip g]
      | none => [])
  if lst.isEmpty then none
  else some (pyTake 500 (String.intercalate "; " lst))

/-- Allergens, group accesses fallible. -/
def allergens_checked (t : String) : Except Unit (Option String) :=
  (match captureClassAfter allergenPre1 notNL t.data with
    | some g => (group_get (some g)).map (fun x => [pyStrip x])
    | none => .ok []).bind (fun l1 =>
  (match captureClassAfter allergenPre2 notNL t.data with
    | some g => (group_get (some g)).map (fun x => [pyStrip x])
    | none => .ok []).map (fun l2 =>
      let lst := l1 ++ l2
      if lst.isEmpty then none
      else some (pyTake 500 (String.intercalate "; " lst))))

/-- `\d+` -/
def digitsPlusRE : RE := RE.seq (RE.cls Char.isDigit) (RE.star (RE.cls Char.isDigit))

/-- `(?:oz|lb|lbs|count|ct|pk|pack)` (alternation in the source's order). -/
def unitAlt1 : RE :=
  RE.alt (strRE "oz") (RE.alt (strRE "lb") (RE.alt (strRE "lbs")
    (RE.alt (strRE "count") (RE.alt (strRE "ct") (RE.alt (strRE "pk") (strRE "pack"))))))

/-- `(\d+(?:\.\d+)?\s*(?:oz|lb|lbs|count|ct|pk|pack))` -/
def pkg1RE : RE :=
  RE.seq digitsPlusRE
    (RE.seq (RE.opt (RE.seq (litCh '.') digitsPlusRE)) (RE.seq wspStar unitAlt1))

/-- `(\d+\s*x\s*\d+(?:\.\d+)?\s*(?:oz|lb))` -/
def pkg2RE : RE :=
  RE.seq digitsPlusRE
    (RE.seq wspStar (RE.seq (litCh 'x')
      (RE.seq wspStar (RE.seq digitsPlusRE
        (RE.seq (RE.opt (RE.seq (litCh '.') digitsPlusRE))
          (RE.seq wspStar (RE.alt (strRE "oz") (strRE "lb"))))))))

/-- Package size: pattern loop with break over the lowercased text;
`match.group(1).strip()`. -/
def package_size_extract (t : String) : Option String :=
  match captureConsumed pkg1RE (pyLower t).data with
  | some g => some (pyStrip g)
  | none =>
      match captureConsumed pkg2RE (pyLower t).data with
      | some g => some (pyStrip g)
      | none => none

/-- Package size, group access fallible. -/
def package_size_checked (t : String) : Except Unit (Option String) :=
  match captureConsumed pkg1RE (pyLower t).data with
  | some g => (group_get (some g)).map (fun x => some (pyStrip x))
  | none =>
      match captureConsumed pkg2RE (pyLower t).data with
      | some g => (group_get (some g)).map (fun x => some (pyStrip x))
      | none => .ok none

/-- `\$[\d.]+/(?:oz|lb|ct|count)` -/
def unitPriceRE : RE :=
  RE.seq (litCh '$')
    (RE.seq (RE.seq (RE.cls digitDot) (RE.star (RE.cls digitDot)))
      (RE.seq (litCh '/')
        (RE.alt (strRE "oz") (RE.alt (strRE "lb") (RE.alt (strRE "ct") (strRE "count"))))))

/-- Unit price: `match.group(0)` over the lowercased text. -/
def unit_price_extract (t : String) : Option String :=
  captureConsumed unitPriceRE (pyLower t).data

/-- Unit price, group access fallible. -/
def unit_price_checked (t : String) : Except Unit (Option String) :=
  match captureConsumed unitPriceRE (pyLower t).data with
  | none => .ok none
  | some g => (group_get (some g)).map some

/-! ## Claim theorems and supporting lemmas -/

lemma priceNumAt_eq_none_of_noDigits {s : List Char}
    (h : ∀ c ∈ s, ¬ c.isDigit) : priceNumAt s = none := by
  unfold priceNumAt
  cases s with
  | nil => simp
  | cons c rest =>
      have hc : ¬ c.isDigit := h c (by simp)
      simp [List.takeWhile_cons, hc]

lemma priceScan_eq_none_of_noDigits {s : List Char}
    (h : ∀ c ∈ s, ¬ c.isDigit) : priceScan s = none := by
  induction s with
  | nil => rfl
  | cons c rest ih =>
      have hrest : ∀ x ∈ rest, ¬ x.isDigit := fun x hx => h x (by simp [hx])
      have hall : priceNumAt (c :: rest) = none := priceNumAt_eq_none_of_noDigits h
      have htl : priceNumAt rest = none := priceNumAt_eq_none_of_noDigits hrest
      unfold priceScan
      by_cases hc : c = '$'
      · simp [hc, htl, ih hrest]
      · simp [hc, hall, ih hrest]

lemma stripCommas_noDigits {t : String} (h : noDigits t) :
    ∀ c ∈ (stripCommas t).data, ¬ c.isDigit := by
  intro c hc
  have : c ∈ t.data := by
    have := hc
    simp only [stripCommas] at this
    exact List.mem_of_mem_filter this
  exact h c this

/-- C3: `extract_price` strips thousands separators and returns the first
`optional-$ digits optional-decimal` run: `"$1,234.56" ↦ 1234.56`,
`"1234.56" ↦ 1234.56`, `"$12" ↦ 12.0`, and any text containing no digit
characters yields `none`. -/
theorem extract_price_spec :
    extract_price (some "$1,234.56") = some 1234.56 ∧
    extract_price (some "1234.56") = some 1234.56 ∧
    extract_price (some "$12") = some 12.0 ∧
    ∀ t : String, noDigits t → extract_price (some t) = none := by
  have d1 : digitsToNat "1234".data = 1234 := by decide
  have d2 : digitsToNat "56".data = 56 := by decide
  have d3 : digitsToNat "12".data = 12 := by decide
  have e1 : extract_price (some "$1,234.56") =
      some ((digitsToNat "1234".data : Rat) + (digitsToNat "56".data : Rat) / 10 ^ 2) := rfl
  have e2 : extract_price (some "1234.56") =
      some ((digitsToNat "1234".data : Rat) + (digitsToNat "56".data : Rat) / 10 ^ 2) := rfl
  have e3 : extract_price (some "$12") = some ((digitsToNat "12".data : Rat)) := rfl
  refine ⟨?_, ?_, ?_, ?_⟩
  · rw [e1, d1, d2]; norm_num
  · rw [e2, d1, d2]; norm_num
  · rw [e3, d3]; norm_num
  intro t ht
  unfold extract_price
  by_cases h0 : t = ""
  · simp [h0]
  · simp only [h0, if_false]
    rw [priceScan_eq_none_of_noDigits (stripCommas_noDigits ht)]

/-- Witness for C3: the universally quantified no-digits clause at the
concrete digit-free input `"no price listed"`. -/
theorem extract_price_spec_witness :
    extract_price (some "no price listed") = none :=
  extract_price_spec.2.2.2 "no price listed" (by decide)

lemma save_go_count (fails : Nat → Bool) :
    ∀ (ps : List Product) (i : Nat) (s : Store),
      (save_go fails i ps s).1 =
        ((List.enumFrom i ps).filter
          (fun x => keyed x.2 && !fails x.1)).length := by
  intro ps
  induction ps with
  | nil => intro i s; rfl
  | cons p rest ih =>
      intro i s
      by_cases hkey : keyed p
      · by_cases hf : fails i
        · simp [save_go, hkey, hf, List.enumFrom, List.filter_cons, ih]
        · simp [save_go, hkey, hf, List.enumFrom, List.filter_cons, ih,
            Nat.add_comm]
      · simp [save_go, hkey, List.enumFrom, List.filter_cons, ih]

lemma enum_filter_fst (q : Nat → Bool) :
    ∀ (ps : List Product) (i : Nat),
      ((List.enumFrom i ps).filter (fun x => q x.1)).length =
        ((List.range' i ps.length).filter q).length := by
  intro ps
  induction ps with
  | nil => intro i; rfl
  | cons p rest ih =>
      intro i
      by_cases h : q i
      · simp [List.enumFrom, List.range', h, ih]
      · simp [List.enumFrom, List.range', h, ih]

/-- C1: `save_to_database` skips key-less records (not counted), isolates a
per-record upsert failure (the rest of the batch is still attempted, and no
exception escapes — the function is total and returns a count), and reports
`saved_count` = the number of records that both carry the conflict key and
whose upsert succeeded; in particular a batch of `N` key-bearing records with
exactly one injected failure reports `N - 1`. -/
theorem save_to_database_count :
    (∀ (fails : Nat → Bool) (ps : List Product) (s : Store),
      (save_to_database fails ps s).1 =
        (ps.enum.filter (fun x => keyed x.2 && !fails x.1)).length) ∧
    (∀ (fails : Nat → Bool) (ps : List Product) (s : Store),
      (∀ p ∈ ps, keyed p = true) →
      ((List.range ps.length).filter fails).length = 1 →
      (save_to_database fails ps s).1 = ps.length - 1) := by
  have base : ∀ (fails : Nat → Bool) (ps : List Product) (s : Store),
      (save_to_database fails ps s).1 =
        (ps.enum.filter (fun x => keyed x.2 && !fails x.1)).length := by
    intro fails ps s
    unfold save_to_database
    cases ps with
    | nil => rfl
    | cons p rest =>
        rw [if_neg (by simp)]
        rw [save_go_count]
        rfl
  refine ⟨base, ?_⟩
  intro fails ps s hkeys hone
  rw [base]
  have hq : (ps.enum.filter (fun x => keyed x.2 && !fails x.1)) =
      (ps.enum.filter (fun x => !fails x.1)) := by
    apply List.filter_congr
    intro x hx
    have hget : ps[x.1]? = some x.2 := List.mem_enum_iff_getElem?.mp hx
    have hmem : x.2 ∈ ps := by
      have hlt : x.1 < ps.length := by
        by_contra hge
        rw [List.getElem?_eq_none (Nat.le_of_not_lt hge)] at hget
        exact Option.noConfusion hget
      rw [List.getElem?_eq_getElem hlt] at hget
      have hx2 : ps[x.1] = x.2 := Option.some_inj.mp hget
      rw [← hx2]
      exact List.getElem_mem hlt
    have hk : keyed x.2 = true := hkeys x.2 hmem
    simp [hk]
  rw [hq]
  have henum : (ps.enum.filter (fun x => !fails x.1)).length =
      ((List.range' 0 ps.length).filter (fun a => !fails a)).length := by
    have := enum_filter_fst (fun a => !fails a) ps 0
    simpa [List.enum] using this
  rw [henum, ← List.range_eq_range']
  have hsplit := List.length_eq_length_filter_add (l := List.range ps.length) fails
  have hlen : (List.range ps.length).length = ps.length := List.length_range _
  omega

/-- Witness for C1: a batch of 3 key-bearing records where the upsert of the
middle record fails yields `saved_count = 2`. -/
theorem save_to_database_count_witness :
    (save_to_database (fun i => i == 1)
      [{ product_url := some "https://a.html" },
       { product_url := some "https://b.html" },
       { product_url := some "https://c.html" }]
      (fun _ => none)).1 = 3 - 1 :=
  save_to_database_count.2 (fun i => i == 1)
    [{ product_url := some "https://a.html" },
     { product_url := some "https://b.html" },
     { product_url := some "https://c.html" }]
    (fun _ => none) (by decide) (by decide)

lemma save_go_store (fails : Nat → Bool) :
    ∀ (ps : List Product) (i : Nat) (s : Store) (k : String),
      (save_go fails i ps s).2 k = (lastWrite fails i ps k).or (s k) := by
  intro ps
  induction ps with
  | nil => intro i s k; rfl
  | cons p rest ih =>
      intro i s k
      by_cases hkey : keyed p
      · by_cases hf : fails i
        · simp [save_go, lastWrite, hkey, hf, ih]
        · by_cases hk : conflictKey p = k
          · subst hk
            simp [save_go, lastWrite, hkey, hf, ih, upsert_store,
              Option.or_assoc]
          · have hk2 : ¬ k = conflictKey p := fun h => hk h.symm
            simp [save_go, lastWrite, hkey, hf, hk, ih, upsert_store,
              Option.or_assoc, hk2]
      · simp [save_go, lastWrite, hkey, ih]

lemma option_or_idem (a b : Option Product) : a.or (a.or b) = a.or b := by
  cases a <;> rfl

/-- C2: running `save_to_database` twice with the identical record list (and
the same per-record failure behaviour) leaves the store in exactly the state
one run leaves it in — the upsert keyed on `product_url` replaces the whole
row, so repeated batches are idempotent on the stored state. -/
theorem save_to_database_idempotent (fails : Nat → Bool) (ps : List Product)
    (s : Store) :
    (save_to_database fails ps (save_to_database fails ps s).2).2 =
      (save_to_database fails ps s).2 := by
  unfold save_to_database
  cases ps with
  | nil => rfl
  | cons p rest =>
      rw [if_neg (by simp), if_neg (by simp)]
      funext k
      simp only [save_go_store, option_or_idem]

lemma nutrient_first_spec (pats : List NPat) (t : List Char) :
    ∀ (i : Nat) (hi : i < pats.length) (v : Nat),
      (∀ (j : Nat) (hj : j < i),
        npatSearch (pats.get ⟨j, Nat.lt_trans hj hi⟩) t = none) →
      npatSearch (pats.get ⟨i, hi⟩) t = some v →
      nutrient_first pats t = some v := by
  induction pats with
  | nil => intro i hi; exact absurd hi (Nat.not_lt_zero i)
  | cons p rest ih =>
      intro i hi v hnone hsome
      cases i with
      | zero =>
          simp only [List.get] at hsome
          simp [nutrient_first, hsome]
      | succ i' =>
          have h0 : npatSearch p t = none := hnone 0 (Nat.succ_pos i')
          simp only [List.get] at hsome
          have hi' : i' < rest.length := Nat.lt_of_succ_lt_succ hi
          simp only [nutrient_first, h0]
          exact ih i' hi' v
            (fun j hj => hnone (j + 1) (Nat.succ_lt_succ hj)) hsome

/-- C4: for each of the seven nutrient fields, the extracted value is the one
produced by the first pattern (in the source's fixed precedence order) whose
case-insensitive search over the combined details+specifications text
matches; patterns after the first match are never consulted, so a set value
is never overwritten by a lower-priority pattern. -/
theorem nutrient_precedence :
    ∀ pats ∈ nutrients, ∀ (text : String) (i : Nat) (hi : i < pats.length)
      (v : Nat),
      (∀ (j : Nat) (hj : j < i),
        npatSearch (pats.get ⟨j, Nat.lt_trans hj hi⟩) (pyLower text).data = none) →
      npatSearch (pats.get ⟨i, hi⟩) (pyLower text).data = some v →
      nutrient_first pats (pyLower text).data = some v := by
  intro pats _ text i hi v hnone hsome
  exact nutrient_first_spec pats (pyLower text).data i hi v hnone hsome

/-- Witness for C4: on `"Item 999 Protein: 10g"` the first protein pattern
(`protein[:\s]*(\d+)\s*g`) matches with value 10, so protein extraction
yields 10 despite the unrelated earlier number 999. -/
theorem nutrient_precedence_witness :
    nutrient_first protein_patterns (pyLower "Item 999 Protein: 10g").data = some 10 :=
  nutrient_precedence protein_patterns
    (by unfold nutrients; exact List.Mem.tail _ (List.Mem.head _))
    "Item 999 Protein: 10g" 0 (by decide) 10
    (fun j hj => absurd hj (Nat.not_lt_zero j))
    (by decide)

/-- C5: strategies are evaluated strictly in order and the first valid result
is returned: with a 3-strategy list whose first strategy fails validity and
whose second yields text passing the name predicate (nonempty, length > 3),
resolution returns the second strategy's stripped text having evaluated
exactly 2 strategies — the third is never evaluated (the result is the same
for every `q3`). -/
theorem selector_fallback_order (q1 q3 : Option String) (txt : String)
    (h1 : validName q1 = false) (h2 : validName (some txt) = true) :
    resolve_name_instr [q1, some txt, q3] = (some (pyStrip txt), 2) := by
  cases q1 with
  | none => simp [resolve_name_instr, h2]
  | some t1 => simp [resolve_name_instr, h1, h2]

/-- Witness for C5: first strategy finds short text `"x"` (invalid), second
finds `"Organic Chicken"`, third finds `"zzzz"` but is never evaluated. -/
theorem selector_fallback_order_witness :
    resolve_name_instr [some "x", some "Organic Chicken", some "zzzz"] =
      (some (pyStrip "Organic Chicken"), 2) :=
  selector_fallback_order (some "x") (some "zzzz") "Organic Chicken"
    (by decide) (by decide)

lemma resolve_name_ne_empty :
    ∀ (rs : List (Option String)) (t : String),
      resolve_name rs = some t → t ≠ "" := by
  intro rs
  induction rs with
  | nil => intro t h; exact absurd h (by simp [resolve_name])
  | cons r rest ih =>
      intro t h
      cases r with
      | none => exact ih t h
      | some txt =>
          by_cases hv : validName (some txt) = true
          · have hstrip : pyStrip txt ≠ "" ∧ (pyStrip txt).length > 3 := by
              simpa [validName] using hv
            simp only [resolve_name, hv, ite_true, if_true] at h
            rw [← Option.some_inj.mp h]
            exact hstrip.1
          · simp only [resolve_name, hv, ite_false, if_false,
              Bool.not_eq_true] at h
            exact ih t (by simpa [Bool.not_eq_true] using h)

/-- C6: a card yields a ProductRecord iff its name resolves (whatever the
price/image/url/id/brand queries observe), and a card whose extraction yields
nothing is skipped without disturbing extraction of the surrounding cards. -/
theorem card_extractable_iff_name :
    (∀ (ctx : CardCtx) (category now : String),
      (scrape_product_card ctx category now).isSome =
        (resolve_name ctx.nameResults).isSome) ∧
    (∀ (pre post : List CardCtx) (c : CardCtx) (category now : String),
      scrape_product_card c category now = none →
      extract_cards (pre ++ c :: post) category now =
        extract_cards pre category now ++ extract_cards post category now) := by
  constructor
  · intro ctx category now
    unfold scrape_product_card
    cases hr : resolve_name ctx.nameResults with
    | none => simp
    | some nm =>
        have hnm : nm ≠ "" := resolve_name_ne_empty ctx.nameResults nm hr
        simp [hnm]
  · intro pre post c category now hc
    induction pre with
    | nil => simp [extract_cards, hc]
    | cons d rest ih =>
        cases hd : scrape_product_card d category now with
        | none => simpa [extract_cards, hd] using ih
        | some p => simpa [extract_cards, hd] using ih

/-- Witness for C6: a three-card category where the middle card has no valid
name — the middle card is skipped and the outer two are both extracted. -/
theorem card_extractable_iff_name_witness :
    extract_cards
      ([⟨none, [some "Kirkland Salmon"], [], [], [], none⟩] ++
        ⟨none, [some "x"], [], [], [], none⟩ ::
          [⟨none, [some "Rotisserie Chicken"], [], [], [], none⟩])
      "meat_seafood" "t0" =
      extract_cards [⟨none, [some "Kirkland Salmon"], [], [], [], none⟩]
        "meat_seafood" "t0" ++
      extract_cards [⟨none, [some "Rotisserie Chicken"], [], [], [], none⟩]
        "meat_seafood" "t0" :=
  card_extractable_iff_name.2
    [⟨none, [some "Kirkland Salmon"], [], [], [], none⟩]
    [⟨none, [some "Rotisserie Chicken"], [], [], [], none⟩]
    ⟨none, [some "x"], [], [], [], none⟩ "meat_seafood" "t0" (by decide)

lemma price_loop_instr_fst :
    ∀ (rs : List (Option String)) (acc : Option Rat),
      (price_loop_instr rs acc).1 = price_loop rs acc := by
  intro rs
  induction rs with
  | nil => intro acc; rfl
  | cons r rest ih =>
      intro acc
      cases r with
      | none => simp [price_loop_instr, price_loop, ih]
      | some txt =>
          by_cases ht : pyStrip txt = ""
          · simp [price_loop_instr, price_loop, ht, ih]
          · cases hep : extract_price (some (pyStrip txt)) with
            | none => simp [price_loop_instr, price_loop, ht, hep, ih]
            | some v =>
                by_cases hv : v = 0
                · simp [price_loop_instr, price_loop, ht, hep, hv, ih]
                · simp [price_loop_instr, price_loop, ht, hep, hv, ih]

lemma price_loop_acc_of_assigns :
    ∀ (rest : List (Option String)) (a b : Option Rat),
      (∃ r ∈ rest, assigns r = true) →
      price_loop rest a = price_loop rest b := by
  intro rest
  induction rest with
  | nil => intro a b h; exact absurd h (by simp)
  | cons r tail ih =>
      intro a b h
      cases r with
      | none =>
          have htail : ∃ x ∈ tail, assigns x = true := by
            rcases h with ⟨x, hx, hass⟩
            rcases List.mem_cons.mp hx with rfl | hx'
            · exact absurd hass (by simp [assigns])
            · exact ⟨x, hx', hass⟩
          simp only [price_loop]
          exact ih a b htail
      | some txt =>
          by_cases ht : pyStrip txt = ""
          · have htail : ∃ x ∈ tail, assigns x = true := by
              rcases h with ⟨x, hx, hass⟩
              rcases List.mem_cons.mp hx with rfl | hx'
              · exact absurd hass (by simp [assigns, ht])
              · exact ⟨x, hx', hass⟩
            simp [price_loop, ht]
            exact ih a b htail
          · cases hep : extract_price (some (pyStrip txt)) with
            | none => simp [price_loop, ht, hep]
            | some v =>
                by_cases hv : v = 0
                · simp [price_loop, ht, hep, hv]
                · simp [price_loop, ht, hep, hv]

/-- Shared evaluation fact: `extract_price` on `"$0.00"` is a genuine zero. -/
lemma extract_price_zero_dollar :
    extract_price (some (pyStrip "$0.00")) = some 0 := by
  have e : extract_price (some (pyStrip "$0.00")) =
      some ((digitsToNat "0".data : Rat) + (digitsToNat "00".data : Rat) / 10 ^ 2) := rfl
  rw [e, show digitsToNat "0".data = 0 from by decide,
    show digitsToNat "00".data = 0 from by decide]
  norm_num

/-- Counterexample to C10 as stated: with strategies
`[found "$0.00", NoSuchElement]` the second (later) strategy *is* evaluated
(2 strategies evaluated, no break), yet the genuine zero price from the first
strategy is retained — a later strategy that finds no element performs no
assignment and therefore does not overwrite the 0.0. -/
theorem price_zero_retained_cex :
    price_loop_instr [some "$0.00", none] none = (some 0, 2, false) := by
  simp [price_loop_instr, extract_price_zero_dollar,
    show pyStrip "$0.00" ≠ "" from by decide]

/-- C10 (amended): the parsed value is assigned and the loop breaks only on a
non-zero value (the instrumented loop computes the same price as the card's
loop); whenever the loop exits via `break` the price is non-zero; and a zero
price from an earlier strategy is overwritten whenever some *later strategy
finds an element with nonempty text* (its result, possibly `None`, replaces
the 0.0 — but a later strategy that raises or finds empty text leaves the
0.0 in place). -/
theorem price_loop_zero_semantics :
    (∀ (rs : List (Option String)) (acc : Option Rat),
      (price_loop_instr rs acc).1 = price_loop rs acc) ∧
    (∀ (rs : List (Option String)) (acc : Option Rat),
      (price_loop_instr rs acc).2.2 = true →
      ∃ v, (price_loop_instr rs acc).1 = some v ∧ v ≠ 0) ∧
    (∀ (txt : String) (rest : List (Option String)) (acc : Option Rat),
      pyStrip txt ≠ "" →
      extract_price (some (pyStrip txt)) = some 0 →
      (∃ r ∈ rest, assigns r = true) →
      price_loop (some txt :: rest) acc = price_loop rest acc) := by
  refine ⟨price_loop_instr_fst, ?_, ?_⟩
  · intro rs
    induction rs with
    | nil => intro acc h; exact absurd h (by simp [price_loop_instr])
    | cons r rest ih =>
        intro acc h
        cases r with
        | none =>
            simp only [price_loop_instr] at h ⊢
            exact ih acc h
        | some txt =>
            by_cases ht : pyStrip txt = ""
            · simp [price_loop_instr, ht] at h ⊢
              exact ih acc h
            · cases hep : extract_price (some (pyStrip txt)) with
              | none =>
                  simp [price_loop_instr, ht, hep] at h ⊢
                  exact ih none h
              | some v =>
                  by_cases hv : v = 0
                  · subst hv
                    simp [price_loop_instr, ht, hep] at h ⊢
                    exact ih (some 0) h
                  · exact ⟨v, by simp [price_loop_instr, ht, hep, hv], hv⟩
  · intro txt rest acc hne hz hassign
    have hstep : price_loop (some txt :: rest) acc = price_loop rest (some 0) := by
      simp [price_loop, hne, hz]
    rw [hstep]
    exact price_loop_acc_of_assigns rest (some 0) acc hassign

/-- Witness for C10 (amended): `"$0.00"` followed by a strategy that finds
text `"N/A"` (assigning, parse `None`) — the zero is overwritten, the loop's
result equals the loop run without the zero strategy. -/
theorem price_loop_zero_semantics_witness :
    price_loop [some "$0.00", some "N/A"] none = price_loop [some "N/A"] none :=
  price_loop_zero_semantics.2.2 "$0.00" [some "N/A"] none (by decide)
    extract_price_zero_dollar (by decide)

lemma link_fallback_le_fresh :
    ∀ (links : List LinkElem) (seen : List String),
      (link_fallback links seen).length ≤ (freshUrls links seen).length := by
  intro links
  induction links with
  | nil => intro seen; exact Nat.le_refl _
  | cons l rest ih =>
      intro seen
      cases hh : l.href with
      | none => simpa [link_fallback, freshUrls, hh] using ih seen
      | some h =>
          by_cases h0 : h = ""
          · simpa [link_fallback, freshUrls, hh, h0] using ih seen
          · by_cases hseen : h ∈ seen
            · simpa [link_fallback, freshUrls, hh, h0, hseen] using ih seen
            · cases hp : l.parent with
              | some p =>
                  simpa [link_fallback, freshUrls, hh, h0, hseen, hp,
                    Nat.succ_le_succ_iff] using ih (h :: seen)
              | none =>
                  simp only [link_fallback, freshUrls, hh, h0, hseen, hp,
                    if_neg, ite_false, List.length_cons]
                  exact Nat.le_trans (ih (h :: seen)) (Nat.le_succ _)

lemma link_fallback_all_fresh :
    ∀ (links : List LinkElem) (seen : List String),
      (∀ l ∈ links, l.href ≠ none ∧ l.href ≠ some "" ∧ l.parent ≠ none) →
      (links.map LinkElem.href).Nodup →
      (∀ l ∈ links, ∀ h, l.href = some h → h ∉ seen) →
      (link_fallback links seen).length = links.length := by
  intro links
  induction links with
  | nil => intro seen _ _ _; rfl
  | cons l rest ih =>
      intro seen hvalid hnodup hseen
      obtain ⟨hne, hne', hpar⟩ := hvalid l (List.mem_cons_self l rest)
      cases hh : l.href with
      | none => exact absurd hh hne
      | some h =>
          have h0 : h ≠ "" := fun hc => hne' (hc ▸ hh)
          have hsn : h ∉ seen := hseen l (List.mem_cons_self l rest) h hh
          cases hp : l.parent with
          | none => exact absurd hp hpar
          | some p =>
              have hrest :
                  (link_fallback rest (h :: seen)).length = rest.length := by
                refine ih (h :: seen)
                  (fun x hx => hvalid x (List.mem_cons_of_mem l hx))
                  ((List.nodup_cons.mp (by simpa using hnodup)).2) ?_
                intro x hx h' hx'
                intro hmem
                rcases List.mem_cons.mp hmem with rfl | hmem'
                · have : some h' ∈ rest.map LinkElem.href :=
                    List.mem_map.mpr ⟨x, hx, hx'⟩
                  have hhead : l.href ∉ rest.map LinkElem.href :=
                    (List.nodup_cons.mp (by simpa using hnodup)).1
                  rw [hh] at hhead
                  exact hhead this
                · exact hseen x (List.mem_cons_of_mem l hx) h' hx' hmem'
              simp [link_fallback, hh, h0, hsn, hp, hrest]

/-- C8: the link-traversal fallback produces at most one container per
distinct (truthy) link URL — never more containers than distinct fresh URLs —
and when the discovered links have pairwise-distinct truthy URLs and each has
a container ancestor, it produces exactly one container per link. -/
theorem link_fallback_dedup :
    (∀ links : List LinkElem,
      (link_fallback links []).length ≤ (freshUrls links []).length) ∧
    (∀ links : List LinkElem,
      (∀ l ∈ links, l.href ≠ none ∧ l.href ≠ some "" ∧ l.parent ≠ none) →
      (links.map LinkElem.href).Nodup →
      (link_fallback links []).length = links.length) := by
  refine ⟨fun links => link_fallback_le_fresh links [], ?_⟩
  intro links hvalid hnodup
  exact link_fallback_all_fresh links [] hvalid hnodup
    (fun l _ h _ hmem => (List.not_mem_nil h) hmem)

/-- Witness for C8: 5 unique item links, each with an ancestor container,
yield exactly 5 deduplicated containers. -/
theorem link_fallback_dedup_witness :
    (link_fallback
      [⟨some "https://www.costco.com/p/1", some 10⟩,
       ⟨some "https://www.costco.com/p/2", some 11⟩,
       ⟨some "https://www.costco.com/p/3", some 12⟩,
       ⟨some "https://www.costco.com/p/4", some 13⟩,
       ⟨some "https://www.costco.com/p/5", some 14⟩] []).length = 5 :=
  link_fallback_dedup.2
    [⟨some "https://www.costco.com/p/1", some 10⟩,
     ⟨some "https://www.costco.com/p/2", some 11⟩,
     ⟨some "https://www.costco.com/p/3", some 12⟩,
     ⟨some "https://www.costco.com/p/4", some 13⟩,
     ⟨some "https://www.costco.com/p/5", some 14⟩]
    (by decide) (by decide)

/-- C9: whatever the Selenium outcomes — selector never found, any
intermediate step failing, any exception raised inside — `set_warehouse`
returns normally (with `True`), and the orchestrator always proceeds to crawl
all seven configured categories. -/
theorem set_warehouse_best_effort :
    ∀ e : WarehouseEnv,
      set_warehouse e = .ok true ∧
      run_warehouse_then_categories e =
        .ok ["meat_seafood", "deli", "prepared_meals", "pantry", "organic",
             "cheese_dairy", "snacks"] := by
  intro e
  have hb : set_warehouse e = .ok true := by
    rcases e with ⟨a, b, c, d, f, g, h⟩
    cases a <;> cases b <;> cases c <;> cases d <;> cases f <;> cases g <;>
      cases h <;> rfl
  refine ⟨hb, ?_⟩
  unfold run_warehouse_then_categories
  rw [hb]
  rfl

lemma takeWhile_eq_self_of_all {p : Char → Bool} :
    ∀ {l : List Char}, (∀ c ∈ l, p c) → l.takeWhile p = l := by
  intro l
  induction l with
  | nil => intro _; rfl
  | cons c rest ih =>
      intro h
      rw [List.takeWhile_cons, if_pos (h c (List.mem_cons_self c rest))]
      rw [ih (fun x hx => h x (List.mem_cons_of_mem c hx))]

lemma takeWhile_append_not {p : Char → Bool} {c : Char} (hc : p c = false) :
    ∀ {ds : List Char} (rest2 : List Char), (∀ x ∈ ds, p x) →
      (ds ++ c :: rest2).takeWhile p = ds := by
  intro ds
  induction ds with
  | nil => intro rest2 _; simp [List.takeWhile_cons, hc]
  | cons d ds' ih =>
      intro rest2 h
      rw [List.cons_append, List.takeWhile_cons,
        if_pos (h d (List.mem_cons_self d ds')),
        ih rest2 (fun x hx => h x (List.mem_cons_of_mem d hx))]

lemma float_of_all_digits {ds : List Char} (hne : ¬ ds.isEmpty)
    (hdig : ∀ c ∈ ds, Char.isDigit c) :
    float_of_string (String.mk ds) = .ok (decimalToRat (String.mk ds)) := by
  unfold float_of_string
  simp only [takeWhile_eq_self_of_all hdig, List.drop_length]
  simp [hne]

lemma float_of_digits_dot_digits {ds fs : List Char} (hne : ¬ ds.isEmpty)
    (hds : ∀ c ∈ ds, Char.isDigit c) (hfs : ∀ c ∈ fs, Char.isDigit c) :
    float_of_string (String.mk (ds ++ '.' :: fs)) =
      .ok (decimalToRat (String.mk (ds ++ '.' :: fs))) := by
  unfold float_of_string
  have hdot : Char.isDigit '.' = false := by decide
  simp only [takeWhile_append_not hdot fs hds]
  rw [show (ds ++ '.' :: fs).drop ds.length = '.' :: fs from by
    simpa using List.drop_left ds ('.' :: fs)]
  simp [takeWhile_eq_self_of_all hfs, List.drop_length, hne]

lemma float_of_priceNumAt {s : List Char} {g : String}
    (h : priceNumAt s = some g) :
    float_of_string g = .ok (decimalToRat g) := by
  unfold priceNumAt at h
  by_cases hempty : (s.takeWhile Char.isDigit).isEmpty
  · simp [hempty] at h
  · have hdig : ∀ c ∈ s.takeWhile Char.isDigit, Char.isDigit c :=
      fun c hc => List.mem_takeWhile_imp hc
    simp only [hempty, if_false, ite_false] at h
    cases hdrop : s.drop (s.takeWhile Char.isDigit).length with
    | nil =>
        rw [hdrop] at h
        cases h
        exact float_of_all_digits hempty hdig
    | cons c rest2 =>
        rw [hdrop] at h
        by_cases hc : c = '.'
        · subst hc
          simp only [if_pos rfl] at h
          cases h
          exact float_of_digits_dot_digits hempty hdig
            (fun x hx => List.mem_takeWhile_imp hx)
        · simp only [if_neg hc] at h
          cases h
          exact float_of_all_digits hempty hdig

lemma float_of_priceScan :
    ∀ {s : List Char} {g : String}, priceScan s = some g →
      float_of_string g = .ok (decimalToRat g) := by
  intro s
  induction s with
  | nil => intro g h; exact absurd h (by simp [priceScan])
  | cons c rest ih =>
      intro g h
      unfold priceScan at h
      by_cases hc : c = '$'
      · simp only [hc, if_pos rfl, ite_true] at h
        cases hnum : priceNumAt rest with
        | some g' =>
            rw [hnum] at h
            cases h
            exact float_of_priceNumAt hnum
        | none =>
            rw [hnum] at h
            exact ih h
      · simp only [hc, if_neg hc, ite_false] at h
        cases hnum : priceNumAt (c :: rest) with
        | some g' =>
            rw [hnum] at h
            cases h
            exact float_of_priceNumAt hnum
        | none =>
            rw [hnum] at h
            exact ih h

lemma int_of_numberScan :
    ∀ {s : List Char} {g : String}, numberScan s = some g →
      int_of_string g = .ok (digitsToNat g.data) := by
  intro s
  induction s with
  | nil => intro g h; exact absurd h (by simp [numberScan])
  | cons c rest ih =>
      intro g h
      unfold numberScan at h
      by_cases hc : c.isDigit
      · simp only [hc, if_pos, ite_true] at h
        cases h
        have hall : ∀ x ∈ (c :: rest).takeWhile Char.isDigit, Char.isDigit x :=
          fun x hx => List.mem_takeWhile_imp hx
        have hne : (c :: rest).takeWhile Char.isDigit ≠ [] := by
          simp [List.takeWhile_cons, hc]
        unfold int_of_string
        rw [if_pos ⟨by simpa using hne, by simpa [List.all_eq_true] using hall⟩]
      · simp only [hc, if_neg, ite_false] at h
        exact ih (by simpa [hc] using h)

/-- C7: every normalizer is total — for every input (empty and `None`
included) the instrumented variant, in which each Python operation that can
raise (`float`, `int`, `group` access) is fallible, returns `.ok` of the
plain variant's value; no input makes any of them signal an error. -/
theorem normalizers_total :
    (∀ t : Option String, extract_price_checked t = .ok (extract_price t)) ∧
    (∀ t : Option String, extract_number_checked t = .ok (extract_number t)) ∧
    (∀ t : String, serving_size_checked t = .ok (serving_size_extract t)) ∧
    (∀ t : String, ingredients_checked t = .ok (ingredients_extract t)) ∧
    (∀ t : String, allergens_checked t = .ok (allergens_extract t)) ∧
    (∀ t : String, package_size_checked t = .ok (package_size_extract t)) ∧
    (∀ t : String, unit_price_checked t = .ok (unit_price_extract t)) := by
  refine ⟨?_, ?_, ?_, ?_, ?_, ?_, ?_⟩
  · intro t
    cases t with
    | none => rfl
    | some s =>
        unfold extract_price_checked extract_price
        by_cases hs : s = ""
        · simp [hs]
        · simp only [hs, if_neg hs, ite_false]
          cases hscan : priceScan (stripCommas s).data with
          | none => rfl
          | some g =>
              show Except.map some (float_of_string g) =
                .ok (some (decimalToRat g))
              rw [float_of_priceScan hscan]
              rfl
  · intro t
    cases t with
    | none => rfl
    | some s =>
        unfold extract_number_checked extract_number
        by_cases hs : s = ""
        · simp [hs]
        · simp only [hs, if_neg hs, ite_false]
          cases hscan : numberScan s.data with
          | none => rfl
          | some g =>
              show Except.map some (int_of_string g) =
                .ok (some (digitsToNat g.data))
              rw [int_of_numberScan hscan]
              rfl
  · intro t
    unfold serving_size_checked serving_size_extract
    cases captureClassAfter servingPre servingCh t.data <;> rfl
  · intro t
    unfold ingredients_checked ingredients_extract
    cases ingredientsSearch t.data <;> rfl
  · intro t
    unfold allergens_checked allergens_extract
    cases captureClassAfter allergenPre1 notNL t.data <;>
      cases captureClassAfter allergenPre2 notNL t.data <;> rfl
  · intro t
    unfold package_size_checked package_size_extract
    cases captureConsumed pkg1RE (pyLower t).data with
    | some g => rfl
    | none => cases captureConsumed pkg2RE (pyLower t).data <;> rfl
  · intro t
    unfold unit_price_checked unit_price_extract
    cases captureConsumed unitPriceRE (pyLower t).data <;> rfl

end Scraper
